import Mathlib

/-!
Verification development for the `source_bsp` lump-directory decoder
(`src/lumps.rs`, `src/lib.rs`).

Shallow embedding conventions:
* Bytes are `Nat`s; a byte list models a Rust `&[u8]` / `Vec<u8>`.
  Little-endian conversions reduce every byte modulo 256, which is the
  identity on genuine byte values.
* Rust panics (out-of-bounds slice indexing, `.unwrap()` on `Err`) are
  modelled by `Option.none`; `some` is normal completion.  The source's
  `LumpReader` read methods have no error channel at all: a short read
  panics via slice indexing.
* `f32` fields are modelled by the `Nat` holding their little-endian
  32-bit pattern: `f32::from_le_bytes` is a bit-level conversion and no
  claim depends on float arithmetic.
* `HashMap<String, String>` is modelled as an association list in first
  insertion order where `insert` overwrites the value of an existing key
  in place; this is observationally faithful for key lookup.
* `lzma_rs::lzma_decompress` is an external crate; it is modelled as an
  abstract parameter `lzma : List Nat → Option (List Nat)` mapping the
  reconstructed standard LZMA stream to the bytes it writes to the
  output sink (`none` = the `Err` that the source `.unwrap()`s).
  Note the source passes `&mut out` (a `Vec<u8>` prefilled with
  `actual_size` zero bytes) as the `io::Write` sink, and `Write` for
  `Vec<u8>` appends: the buffer handed to the decoders is the zero
  prefix followed by whatever the decompressor wrote.
-/

namespace SrcBsp

/-- Little-endian unsigned value of the first `k` bytes of `b`
(missing bytes read as 0; each byte reduced mod 256).  `u32conv` is
`u32::from_le_bytes` on a 4-byte slice. -/
def u32conv (b : List Nat) : Nat :=
  b.getD 0 0 % 256 + 256 * (b.getD 1 0 % 256) + 65536 * (b.getD 2 0 % 256)
    + 16777216 * (b.getD 3 0 % 256)

/-- `u16::from_le_bytes` on a 2-byte slice. -/
def u16conv (b : List Nat) : Nat :=
  b.getD 0 0 % 256 + 256 * (b.getD 1 0 % 256)

/-- `u8::from_le_bytes` on a 1-byte slice. -/
def u8conv (b : List Nat) : Nat := b.getD 0 0 % 256

/-- Reinterpret an unsigned `w`-bit value as two's-complement signed. -/
def toSigned (w : Nat) (n : Nat) : Int :=
  if n < 2 ^ (w - 1) then (n : Int) else (n : Int) - 2 ^ w

/-- `i32::from_le_bytes`. -/
def i32conv (b : List Nat) : Int := toSigned 32 (u32conv b)

/-- `i16::from_le_bytes`. -/
def i16conv (b : List Nat) : Int := toSigned 16 (u16conv b)

/-- `i8::from_le_bytes`. -/
def i8conv (b : List Nat) : Int := toSigned 8 (u8conv b)

/-- `f32::from_le_bytes`, modelled by the bit pattern it transmutes. -/
def f32conv (b : List Nat) : Nat := u32conv b

/-- The source's `LumpReader`: an owned byte region plus a read position
(`position: usize`, `data: Vec<u8>`). -/
structure LumpReader where
  position : Nat
  data : List Nat
deriving DecidableEq

/-- `LumpReader::new` copies the slice and starts at position 0. -/
def LumpReader.new (d : List Nat) : LumpReader := ⟨0, d⟩

/-- One primitive read of width `w` with value conversion `c`: the
source methods bump `position` by `w` and index
`data[position-w..position]`, which panics (here: `none`) when the
region is exhausted; otherwise they convert the `w`-byte slice. -/
def pread (w : Nat) (c : List Nat → α) (r : LumpReader) :
    Option (α × LumpReader) :=
  if r.position + w ≤ r.data.length then
    some (c ((r.data.drop r.position).take w), ⟨r.position + w, r.data⟩)
  else none

/-- `LumpReader::read_f32`. -/
def read_f32 : LumpReader → Option (Nat × LumpReader) := pread 4 f32conv

/-- `LumpReader::read_i32`. -/
def read_i32 : LumpReader → Option (Int × LumpReader) := pread 4 i32conv

/-- `LumpReader::read_u32`. -/
def read_u32 : LumpReader → Option (Nat × LumpReader) := pread 4 u32conv

/-- `LumpReader::read_u16`. -/
def read_u16 : LumpReader → Option (Nat × LumpReader) := pread 2 u16conv

/-- `LumpReader::read_i16`. -/
def read_i16 : LumpReader → Option (Int × LumpReader) := pread 2 i16conv

/-- `LumpReader::read_u8`. -/
def read_u8 : LumpReader → Option (Nat × LumpReader) := pread 1 u8conv

/-- `LumpReader::read_i8`. -/
def read_i8 : LumpReader → Option (Int × LumpReader) := pread 1 i8conv

/-- A directory entry (`struct Lump`): `fileofs`, `filelen`, `version`
are `i32` (so they range over `[-2^31, 2^31)` in any state the source
can construct), `ident` is the 4-byte compression flag. -/
structure Lump where
  fileofs : Int
  filelen : Int
  version : Int
  ident : List Nat
deriving DecidableEq

/-- `struct Plane` (stride 20): `f32` fields carried as bit patterns. -/
structure Plane where
  vec_x : Nat
  vec_y : Nat
  vec_z : Nat
  dist_from_origin : Nat
  type : Int
deriving DecidableEq

/-- `struct TexData` (stride 32). -/
structure TexData where
  ref_r : Nat
  ref_g : Nat
  ref_b : Nat
  texdata_string_table_index : Int
  width : Int
  height : Int
  view_width : Int
  view_height : Int
deriving DecidableEq

/-- `struct Vertex` (stride 12). -/
structure Vertex where
  x : Nat
  y : Nat
  z : Nat
deriving DecidableEq

/-- `struct Node` (stride 32). -/
structure Node where
  plane_num : Int
  children : List Int
  mins : List Int
  maxs : List Int
  first_face : Nat
  num_faces : Nat
  area : Int
  padding : Int
deriving DecidableEq

/-- `struct TexInfo` (stride 72): the two 2×4 float matrices are kept as
flat 4-element rows of bit patterns. -/
structure TexInfo where
  texture_vecs : List (List Nat)
  lightmap_vecs : List (List Nat)
  flags : Int
  tex_data : Int
deriving DecidableEq

/-- `struct Face` (stride 56). -/
structure Face where
  plane_num : Nat
  side : Nat
  on_node : Nat
  first_edge : Int
  num_edges : Int
  texinfo : Int
  displacement_info : Int
  surface_fog_volume_id : Int
  styles : List Nat
  light_offset : Int
  area : Nat
  lightmap_texture_mins_in_luxels : List Int
  lightmap_texture_size_in_luxels : List Int
  original_face : Int
  num_primitives : Nat
  first_primitave_id : Nat
  smoothing_groups : Nat
deriving DecidableEq

/-- `struct LightMapSample` (stride 4). -/
structure LightMapSample where
  r : Nat
  g : Nat
  b : Nat
  exponent : Int
deriving DecidableEq

/-- `struct OccluderData` (40 bytes). -/
structure OccluderData where
  flags : Int
  first_poly : Int
  poly_count : Int
  mins : List Nat
  maxs : List Nat
  area : Int
deriving DecidableEq

/-- `struct OccluderPolyData` (12 bytes). -/
structure OccluderPolyData where
  first_vertex_index : Int
  vertex_count : Int
  plane_num : Int
deriving DecidableEq

/-- `struct Occluder`: one self-describing occluder group. -/
structure Occluder where
  count : Int
  occluder_data : List OccluderData
  poly_data_count : Int
  poly_data : List OccluderPolyData
  vertex_index_count : Int
  vertex_indicies : List Int
deriving DecidableEq

/-- `struct ParsedLumps`: the aggregate result.  These are the only
collections the source declares; `entities` entries model
`HashMap<String, String>` as described in the header comment. -/
structure ParsedLumps where
  entities : List (List (String × String))
  planes : List Plane
  texdata : List TexData
  vertex_list : List Vertex
  nodes : List Node
  texinfo : List TexInfo
  faces : List Face
  lightmap_samples : List LightMapSample
  occluders : List Occluder
deriving DecidableEq

/-- The freshly initialised `ParsedLumps` of `parse_lump_data`. -/
def initParsed : ParsedLumps := ⟨[], [], [], [], [], [], [], [], []⟩

/-- Sequencing of one read into the rest of a record decode: `none`
(a Rust panic) short-circuits.  `pbind (read r) fun a r => k` models
`let a = data.read_xx();` followed by `k`. -/
def pbind (x : Option (α × LumpReader)) (k : α → LumpReader → Option β) :
    Option β :=
  match x with
  | none => none
  | some (a, r) => k a r

/-- One `Plane` record: the arm's five sequential reads. -/
def readPlane (r : LumpReader) : Option (Plane × LumpReader) :=
  pbind (read_f32 r) fun vx r =>
  pbind (read_f32 r) fun vy r =>
  pbind (read_f32 r) fun vz r =>
  pbind (read_f32 r) fun dist r =>
  pbind (read_i32 r) fun ty r =>
  some (⟨vx, vy, vz, dist, ty⟩, r)

/-- One `TexData` record. -/
def readTexData (r : LumpReader) : Option (TexData × LumpReader) :=
  pbind (read_f32 r) fun rr r =>
  pbind (read_f32 r) fun rg r =>
  pbind (read_f32 r) fun rb r =>
  pbind (read_i32 r) fun idx r =>
  pbind (read_i32 r) fun w r =>
  pbind (read_i32 r) fun h r =>
  pbind (read_i32 r) fun vw r =>
  pbind (read_i32 r) fun vh r =>
  some (⟨rr, rg, rb, idx, w, h, vw, vh⟩, r)

/-- One `Vertex` record. -/
def readVertex (r : LumpReader) : Option (Vertex × LumpReader) :=
  pbind (read_f32 r) fun x r =>
  pbind (read_f32 r) fun y r =>
  pbind (read_f32 r) fun z r =>
  some (⟨x, y, z⟩, r)

/-- One `Node` record. -/
def readNode (r : LumpReader) : Option (Node × LumpReader) :=
  pbind (read_i32 r) fun pn r =>
  pbind (read_i32 r) fun c0 r =>
  pbind (read_i32 r) fun c1 r =>
  pbind (read_i16 r) fun mn0 r =>
  pbind (read_i16 r) fun mn1 r =>
  pbind (read_i16 r) fun mn2 r =>
  pbind (read_i16 r) fun mx0 r =>
  pbind (read_i16 r) fun mx1 r =>
  pbind (read_i16 r) fun mx2 r =>
  pbind (read_u16 r) fun ff r =>
  pbind (read_u16 r) fun nf r =>
  pbind (read_i16 r) fun ar r =>
  pbind (read_i16 r) fun pd r =>
  some (⟨pn, [c0, c1], [mn0, mn1, mn2], [mx0, mx1, mx2], ff, nf, ar, pd⟩, r)

/-- One `TexInfo` record. -/
def readTexInfo (r : LumpReader) : Option (TexInfo × LumpReader) :=
  pbind (read_f32 r) fun t0 r =>
  pbind (read_f32 r) fun t1 r =>
  pbind (read_f32 r) fun t2 r =>
  pbind (read_f32 r) fun t3 r =>
  pbind (read_f32 r) fun t4 r =>
  pbind (read_f32 r) fun t5 r =>
  pbind (read_f32 r) fun t6 r =>
  pbind (read_f32 r) fun t7 r =>
  pbind (read_f32 r) fun l0 r =>
  pbind (read_f32 r) fun l1 r =>
  pbind (read_f32 r) fun l2 r =>
  pbind (read_f32 r) fun l3 r =>
  pbind (read_f32 r) fun l4 r =>
  pbind (read_f32 r) fun l5 r =>
  pbind (read_f32 r) fun l6 r =>
  pbind (read_f32 r) fun l7 r =>
  pbind (read_i32 r) fun fl r =>
  pbind (read_i32 r) fun td r =>
  some (⟨[[t0, t1, t2, t3], [t4, t5, t6, t7]],
         [[l0, l1, l2, l3], [l4, l5, l6, l7]], fl, td⟩, r)

/-- One `Face` record. -/
def readFace (r : LumpReader) : Option (Face × LumpReader) :=
  pbind (read_u16 r) fun pn r =>
  pbind (read_u8 r) fun sd r =>
  pbind (read_u8 r) fun onn r =>
  pbind (read_i32 r) fun fe r =>
  pbind (read_i16 r) fun ne r =>
  pbind (read_i16 r) fun ti r =>
  pbind (read_i16 r) fun di r =>
  pbind (read_i16 r) fun sf r =>
  pbind (read_u8 r) fun s0 r =>
  pbind (read_u8 r) fun s1 r =>
  pbind (read_u8 r) fun s2 r =>
  pbind (read_u8 r) fun s3 r =>
  pbind (read_i32 r) fun lo r =>
  pbind (read_f32 r) fun ar r =>
  pbind (read_i32 r) fun lm0 r =>
  pbind (read_i32 r) fun lm1 r =>
  pbind (read_i32 r) fun ls0 r =>
  pbind (read_i32 r) fun ls1 r =>
  pbind (read_i32 r) fun og r =>
  pbind (read_u16 r) fun np r =>
  pbind (read_u16 r) fun fp r =>
  pbind (read_u32 r) fun sg r =>
  some (⟨pn, sd, onn, fe, ne, ti, di, sf, [s0, s1, s2, s3], lo, ar,
         [lm0, lm1], [ls0, ls1], og, np, fp, sg⟩, r)

/-- One `LightMapSample` record. -/
def readLightMapSample (r : LumpReader) :
    Option (LightMapSample × LumpReader) :=
  pbind (read_u8 r) fun cr r =>
  pbind (read_u8 r) fun cg r =>
  pbind (read_u8 r) fun cb r =>
  pbind (read_i8 r) fun ex r =>
  some (⟨cr, cg, cb, ex⟩, r)

/-- One `OccluderData` record. -/
def readOccluderData (r : LumpReader) :
    Option (OccluderData × LumpReader) :=
  pbind (read_i32 r) fun fl r =>
  pbind (read_i32 r) fun fp r =>
  pbind (read_i32 r) fun pc r =>
  pbind (read_f32 r) fun mn0 r =>
  pbind (read_f32 r) fun mn1 r =>
  pbind (read_f32 r) fun mn2 r =>
  pbind (read_f32 r) fun mx0 r =>
  pbind (read_f32 r) fun mx1 r =>
  pbind (read_f32 r) fun mx2 r =>
  pbind (read_i32 r) fun ar r =>
  some (⟨fl, fp, pc, [mn0, mn1, mn2], [mx0, mx1, mx2], ar⟩, r)

/-- One `OccluderPolyData` record. -/
def readOccluderPolyData (r : LumpReader) :
    Option (OccluderPolyData × LumpReader) :=
  pbind (read_i32 r) fun fv r =>
  pbind (read_i32 r) fun vc r =>
  pbind (read_i32 r) fun pn r =>
  some (⟨fv, vc, pn⟩, r)

/-- `n` repeated record reads (the `for _ in 0..n { push }` loops). -/
def readN (g : LumpReader → Option (α × LumpReader)) :
    Nat → LumpReader → Option (List α × LumpReader)
  | 0, r => some ([], r)
  | n + 1, r =>
    match g r with
    | none => none
    | some (a, r2) =>
      match readN g n r2 with
      | none => none
      | some (l, r3) => some (a :: l, r3)

/-- The common fixed-stride arm shape: `num_lumps = data.len() / w`
followed by that many record reads from position 0. -/
def parseFixed (w : Nat) (g : LumpReader → Option (α × LumpReader))
    (d : List Nat) : Option (List α) :=
  (readN g (d.length / w) (LumpReader.new d)).map Prod.fst

/-- One occluder group of the occlusion arm: leading `i32` count and
that many `OccluderData`, an `i32` poly count and that many
`OccluderPolyData`, an `i32` vertex-index count and that many `i32`s.
A negative count gives an empty Rust range `0..count`, hence
`Int.toNat`. -/
def readOccGroup (r : LumpReader) : Option (Occluder × LumpReader) :=
  pbind (read_i32 r) fun count r =>
  pbind (readN readOccluderData count.toNat r) fun od r =>
  pbind (read_i32 r) fun pdc r =>
  pbind (readN readOccluderPolyData pdc.toNat r) fun pd r =>
  pbind (read_i32 r) fun vic r =>
  pbind (readN read_i32 vic.toNat r) fun vi r =>
  some (⟨count, od, pdc, pd, vic, vi⟩, r)

/-- The occlusion arm's `while data.get_pos() < data.get_len()` loop.
The `fuel` argument only makes the recursion structural: every
successful `readOccGroup` advances the position by at least 12 bytes
(three `i32` counts), so with the `data.length + 1` fuel given by
`parseOcclusion` the 0-fuel branch is unreachable; its value is chosen
to agree with the loop exit so that the equation
`position ≥ length → result = acc` holds for every fuel. -/
def parseOccLoopF : Nat → LumpReader → List Occluder → Option (List Occluder)
  | 0, r, acc => if r.position < r.data.length then none else some acc
  | fuel + 1, r, acc =>
    if r.position < r.data.length then
      match readOccGroup r with
      | none => none
      | some (o, r2) => parseOccLoopF fuel r2 (acc ++ [o])
    else some acc

/-- The occlusion lump decoder: whole occluder groups until the cursor
reaches the region length. -/
def parseOcclusion (d : List Nat) : Option (List Occluder) :=
  parseOccLoopF (d.length + 1) (LumpReader.new d) []

/-- The Unicode replacement character emitted by
`String::from_utf8_lossy` for ill-formed input. -/
def replChar : Char := Char.ofNat 0xFFFD

/-- Valid second byte of a 3-byte UTF-8 sequence headed by `b0`. -/
def utf8Cont3 (b0 b1 : Nat) : Prop :=
  (b0 = 0xE0 ∧ 0xA0 ≤ b1 ∧ b1 ≤ 0xBF)
    ∨ (0xE1 ≤ b0 ∧ b0 ≤ 0xEC ∧ 0x80 ≤ b1 ∧ b1 ≤ 0xBF)
    ∨ (b0 = 0xED ∧ 0x80 ≤ b1 ∧ b1 ≤ 0x9F)
    ∨ (0xEE ≤ b0 ∧ b0 ≤ 0xEF ∧ 0x80 ≤ b1 ∧ b1 ≤ 0xBF)

instance (b0 b1 : Nat) : Decidable (utf8Cont3 b0 b1) := by
  unfold utf8Cont3; infer_instance

/-- Valid second byte of a 4-byte UTF-8 sequence headed by `b0`. -/
def utf8Cont4 (b0 b1 : Nat) : Prop :=
  (b0 = 0xF0 ∧ 0x90 ≤ b1 ∧ b1 ≤ 0xBF)
    ∨ (0xF1 ≤ b0 ∧ b0 ≤ 0xF3 ∧ 0x80 ≤ b1 ∧ b1 ≤ 0xBF)
    ∨ (b0 = 0xF4 ∧ 0x80 ≤ b1 ∧ b1 ≤ 0x8F)

instance (b0 b1 : Nat) : Decidable (utf8Cont4 b0 b1) := by
  unfold utf8Cont4; infer_instance

/-- `String::from_utf8_lossy`: strict UTF-8 decoding where every
maximal ill-formed subpart is replaced by one U+FFFD and decoding
resumes at the byte that broke the sequence. -/
def utf8Lossy : List Nat → List Char
  | [] => []
  | b0 :: rest =>
    if b0 < 0x80 then Char.ofNat b0 :: utf8Lossy rest
    else if b0 < 0xC2 then replChar :: utf8Lossy rest
    else if b0 ≤ 0xDF then
      match rest with
      | [] => [replChar]
      | b1 :: rest2 =>
        if 0x80 ≤ b1 ∧ b1 ≤ 0xBF then
          Char.ofNat ((b0 - 0xC0) * 64 + (b1 - 0x80)) :: utf8Lossy rest2
        else replChar :: utf8Lossy (b1 :: rest2)
    else if b0 ≤ 0xEF then
      match rest with
      | [] => [replChar]
      | b1 :: rest2 =>
        if utf8Cont3 b0 b1 then
          match rest2 with
          | [] => [replChar]
          | b2 :: rest3 =>
            if 0x80 ≤ b2 ∧ b2 ≤ 0xBF then
              Char.ofNat ((b0 - 0xE0) * 4096 + (b1 - 0x80) * 64 + (b2 - 0x80))
                :: utf8Lossy rest3
            else replChar :: utf8Lossy (b2 :: rest3)
        else replChar :: utf8Lossy (b1 :: rest2)
    else if b0 ≤ 0xF4 then
      match rest with
      | [] => [replChar]
      | b1 :: rest2 =>
        if utf8Cont4 b0 b1 then
          match rest2 with
          | [] => [replChar]
          | b2 :: rest3 =>
            if 0x80 ≤ b2 ∧ b2 ≤ 0xBF then
              match rest3 with
              | [] => [replChar]
              | b3 :: rest4 =>
                if 0x80 ≤ b3 ∧ b3 ≤ 0xBF then
                  Char.ofNat ((b0 - 0xF0) * 262144 + (b1 - 0x80) * 4096
                      + (b2 - 0x80) * 64 + (b3 - 0x80)) :: utf8Lossy rest4
                else replChar :: utf8Lossy (b3 :: rest4)
            else replChar :: utf8Lossy (b2 :: rest3)
        else replChar :: utf8Lossy (b1 :: rest2)
    else replChar :: utf8Lossy rest

/-- `captures_iter` of `BLOCK_RE` = `(\x7b(?:.|\n)+?\x7d)` as a single
left-to-right sweep.  Leftmost-first with a lazy one-or-more body means:
a match starts at each earliest unconsumed opening brace and ends at the
first closing brace at least two characters later; an unclosed opening
brace matches nothing.  `st = none` is "scanning for a brace", `st =
some acc` holds the reversed body collected since the last opening
brace. -/
def blockGo : List Char → Option (List Char) → List (List Char)
  | [], _ => []
  | c :: rest, none =>
    if c = Char.ofNat 123 then blockGo rest (some []) else blockGo rest none
  | c :: rest, some acc =>
    if c = Char.ofNat 125 ∧ acc ≠ [] then
      (Char.ofNat 123 :: acc.reverse ++ [Char.ofNat 125]) :: blockGo rest none
    else blockGo rest (some (c :: acc))

/-- All non-overlapping `BLOCK_RE` matches, in order. -/
def blockScan (cs : List Char) : List (List Char) := blockGo cs none

/-- The value part of `ITEM_RE` = `"(.+?)" "(.+?)"\n` from the character
after `" "` and the opening quote of the value: the shortest nonempty
newline-free capture whose closing quote is immediately followed by a
newline, lazy shortest-first as the regex engine tries it. -/
def valSearch : List Char → Option (List Char × List Char)
  | [] => none
  | c :: rest =>
    if c = Char.ofNat 10 then none
    else
      match rest with
      | a :: b :: r2 =>
        if a = Char.ofNat 34 ∧ b = Char.ofNat 10 then some ([c], r2)
        else
          match valSearch rest with
          | some (v, r) => some (c :: v, r)
          | none => none
      | _ => none

/-- The key part of `ITEM_RE` after its opening quote, with the regex
engine's backtracking order: the key capture grows one character at a
time (any character but a newline, so quotes may be captured); for each
candidate end matching the literal `" "` the value is searched, and on
its failure the key keeps growing. -/
def keyBacktrack : List Char → Option (List Char × List Char × List Char)
  | [] => none
  | c :: rest =>
    if c = Char.ofNat 10 then none
    else
      match rest with
      | q1 :: sp :: q2 :: r2 =>
        if q1 = Char.ofNat 34 ∧ sp = Char.ofNat 32 ∧ q2 = Char.ofNat 34 then
          match valSearch r2 with
          | some (v, r) => some ([c], v, r)
          | none =>
            match keyBacktrack rest with
            | some (k, v, r) => some (c :: k, v, r)
            | none => none
        else
          match keyBacktrack rest with
          | some (k, v, r) => some (c :: k, v, r)
          | none => none
      | _ => none

/-- One `ITEM_RE` match attempt anchored at the current position:
succeeds exactly when the position starts a full
`"key" "value"`-newline span, returning the two captures and the
remainder after the newline. -/
def itemAt : List Char → Option (List Char × List Char × List Char)
  | [] => none
  | c :: rest => if c = Char.ofNat 34 then keyBacktrack rest else none

/-- `captures_iter` of `ITEM_RE`: leftmost non-overlapping matches,
resuming after each match.  `fuel` only makes the recursion structural;
every step consumes at least one character, so the `cs.length` fuel
passed by `itemScan` never runs out. -/
def itemScanF : Nat → List Char → List (String × String)
  | 0, _ => []
  | _ + 1, [] => []
  | fuel + 1, c :: rest =>
    match itemAt (c :: rest) with
    | some (k, v, r) => (String.mk k, String.mk v) :: itemScanF fuel r
    | none => itemScanF fuel rest

/-- All `ITEM_RE` captures of one block, in match order. -/
def itemScan (cs : List Char) : List (String × String) :=
  itemScanF cs.length cs

/-- `HashMap::insert` on the association-list model: overwrite the
value of an existing key in place, else append. -/
def insertKV (m : List (String × String)) (k v : String) :
    List (String × String) :=
  if m.any (fun p => p.1 = k) then
    m.map (fun p => if p.1 = k then (k, v) else p)
  else m ++ [(k, v)]

/-- The entities arm: lossy-decode the lump bytes, take every
`BLOCK_RE` match, and build one map per block from its `ITEM_RE`
captures. -/
def parseEntities (buf : List Nat) : List (List (String × String)) :=
  (blockScan (utf8Lossy buf)).map
    (fun b => (itemScan b).foldl (fun m kv => insertKV m kv.1 kv.2) [])

/-- `(n as u64).to_le_bytes()`. -/
def le64 (n : Nat) : List Nat :=
  [n % 256, n / 256 % 256, n / 65536 % 256, n / 16777216 % 256,
   n / 4294967296 % 256, n / 1099511627776 % 256,
   n / 281474976710656 % 256, n / 72057594037927936 % 256]

/-- The compressed-lump branch: read the 17-byte wrapper (`u32` id,
`u32` actual size, `u32` lzma size, 5 property bytes) off the sliced
region, rebuild a standard LZMA stream `properties ++ u64 actual size
++ payload`, run the decompressor, and hand back the output sink's
final contents — the `actual_size` zero bytes the source prefilled
followed by what was appended to the `Vec` through `io::Write`.  A
wrapper too short to read or a failing decompression is the source's
panic (`none`). -/
def decompressLump (lzma : List Nat → Option (List Nat))
    (region : List Nat) : Option (List Nat) :=
  pbind (read_u32 (LumpReader.new region)) fun _id r =>
  pbind (read_u32 r) fun actual r =>
  pbind (read_u32 r) fun _lzmaSize r =>
  pbind (read_u8 r) fun p0 r =>
  pbind (read_u8 r) fun p1 r =>
  pbind (read_u8 r) fun p2 r =>
  pbind (read_u8 r) fun p3 r =>
  pbind (read_u8 r) fun p4 _r =>
  match lzma ([p0, p1, p2, p3, p4] ++ le64 actual ++ region.drop 17) with
  | none => none
  | some out => some (List.replicate actual 0 ++ out)

/-- The exact byte stream `decompressLump` feeds the decompressor for a
region of at least 17 bytes, written positionally. -/
def lzmaInput (region : List Nat) : List Nat :=
  [region.getD 12 0 % 256, region.getD 13 0 % 256, region.getD 14 0 % 256,
   region.getD 15 0 % 256, region.getD 16 0 % 256]
    ++ le64 (u32conv ((region.drop 4).take 4)) ++ region.drop 17

/-- The declared decompressed size `decompressLump` reads at wrapper
offset 4. -/
def actualSize (region : List Nat) : Nat := u32conv ((region.drop 4).take 4)

/-- `x as usize` on a 64-bit target for an `i32`-ranged `x`
(sign-extending, then reinterpreted unsigned). -/
def usize64 (x : Int) : Nat := (x % (2 ^ 64 : Int)).toNat

/-- Wrap an integer to `i32` (release-mode overflow semantics of the
`fileofs + filelen` addition). -/
def wrapI32 (x : Int) : Int := (x + 2 ^ 31) % 2 ^ 32 - 2 ^ 31

/-- `&full_data[lump.fileofs as usize..(lump.fileofs + lump.filelen) as
usize]`: panics (`none`) unless `start ≤ stop ≤ full_data.len()`. -/
def sliceLump (full : List Nat) (l : Lump) : Option (List Nat) :=
  let start := usize64 l.fileofs
  let stop := usize64 (wrapI32 (l.fileofs + l.filelen))
  if start ≤ stop ∧ stop ≤ full.length then
    some ((full.drop start).take (stop - start))
  else none

/-- The 64-way `match i` of `parse_lump_data`: slot 0 entities, 1
planes, 2 texdata, 3 vertexes, 5 nodes, 6 texinfo, 7 faces, 8 lighting,
9 occlusion; every other arm — including 4 (visibility), 10–63 and the
catch-all `_` — is `()`. -/
def dispatchLump (i : Nat) (buf : List Nat) (parsed : ParsedLumps) :
    Option ParsedLumps :=
  if i = 0 then
    some { parsed with entities := parsed.entities ++ parseEntities buf }
  else if i = 1 then
    (parseFixed 20 readPlane buf).map
      (fun l => { parsed with planes := parsed.planes ++ l })
  else if i = 2 then
    (parseFixed 32 readTexData buf).map
      (fun l => { parsed with texdata := parsed.texdata ++ l })
  else if i = 3 then
    (parseFixed 12 readVertex buf).map
      (fun l => { parsed with vertex_list := parsed.vertex_list ++ l })
  else if i = 5 then
    (parseFixed 32 readNode buf).map
      (fun l => { parsed with nodes := parsed.nodes ++ l })
  else if i = 6 then
    (parseFixed 72 readTexInfo buf).map
      (fun l => { parsed with texinfo := parsed.texinfo ++ l })
  else if i = 7 then
    (parseFixed 56 readFace buf).map
      (fun l => { parsed with faces := parsed.faces ++ l })
  else if i = 8 then
    (parseFixed 4 readLightMapSample buf).map
      (fun l =>
        { parsed with lightmap_samples := parsed.lightmap_samples ++ l })
  else if i = 9 then
    (parseOcclusion buf).map
      (fun l => { parsed with occluders := parsed.occluders ++ l })
  else some parsed

/-- One iteration of the directory loop for entry `lump` at slot `i`:
skip when the offset is zero, otherwise slice the file buffer, replace
the slice by the decompressed buffer when the ident is nonzero, and
dispatch on the slot index. -/
def processLump (lzma : List Nat → Option (List Nat)) (full : List Nat)
    (parsed : ParsedLumps) (i : Nat) (lump : Lump) : Option ParsedLumps :=
  if lump.fileofs = 0 then some parsed
  else
    match sliceLump full lump with
    | none => none
    | some region =>
      if lump.ident ≠ [0, 0, 0, 0] then
        match decompressLump lzma region with
        | none => none
        | some buf => dispatchLump i buf parsed
      else dispatchLump i region parsed

/-- The enumerated directory fold of `parse_lump_data`. -/
def parseLoop (lzma : List Nat → Option (List Nat)) (full : List Nat) :
    List (Nat × Lump) → ParsedLumps → Option ParsedLumps
  | [], parsed => some parsed
  | (i, l) :: rest, parsed =>
    match processLump lzma full parsed i l with
    | none => none
    | some parsed2 => parseLoop lzma full rest parsed2

/-- `parse_lump_data(lumps, full_data)`, parameterised by the abstract
LZMA decoder. -/
def parse_lump_data (lzma : List Nat → Option (List Nat))
    (lumps : List Lump) (full_data : List Nat) : Option ParsedLumps :=
  parseLoop lzma full_data lumps.enum initParsed

/-- A decompressor instance that fails: stands for `lzma_rs` rejecting
a corrupt or truncated payload (e.g. a properties byte ≥ 225). -/
def lzmaStub : List Nat → Option (List Nat) := fun _ => none

/-- A decompressor instance that succeeds with a fixed output. -/
def lzmaConst (out : List Nat) : List Nat → Option (List Nat) :=
  fun _ => some out

/-- An exact reader: `g` started at any in-range position fails iff
fewer than `w` bytes remain, and otherwise returns the record computed
by `c` from exactly the next `w` bytes, advancing by `w`.  Every
fixed-stride record reader of the source is exact for its stride. -/
def Exact (w : Nat) (c : List Nat → α)
    (g : LumpReader → Option (α × LumpReader)) : Prop :=
  ∀ p d, p ≤ List.length d →
    g ⟨p, d⟩ =
      if p + w ≤ List.length d then
        some (c ((d.drop p).take w), ⟨p + w, d⟩)
      else none

/-- The UTF-8 bytes of
`"{\n\"classname\" \"light\"\n\"origin\" \"0 0 0\"\n}\n"`,
the entity-lump text of the spec's worked example (C8). -/
def c8text : List Nat :=
  [123, 10, 34, 99, 108, 97, 115, 115, 110, 97, 109, 101, 34, 32, 34, 108,
   105, 103, 104, 116, 34, 10, 34, 111, 114, 105, 103, 105, 110, 34, 32,
   34, 48, 32, 48, 32, 48, 34, 10, 125, 10]

/-- A file buffer with a 16-byte prefix followed by `c8text`. -/
def c8full : List Nat := List.replicate 16 0 ++ c8text

/-- The UTF-8 bytes of `"{\n\"a\" \"b\"\n\"c\" \"d\"}"`: the final
`"c" "d"` pair is not followed by a newline (C10). -/
def c10text : List Nat :=
  [123, 10, 34, 97, 34, 32, 34, 98, 34, 10, 34, 99, 34, 32, 34, 100, 34,
   125]

/-- A complete occluder group: count 1, one occluder-data record
(flags 2, first poly 0, poly count 1, zero mins/maxs, area 5), poly
count 1, one poly record (vertex start 0, count 0, plane 3), vertex
index count 2, indices 7 and 9 — 72 bytes. -/
def c7group1 : List Nat :=
  [1, 0, 0, 0] ++ [2, 0, 0, 0] ++ [0, 0, 0, 0] ++ [1, 0, 0, 0]
    ++ List.replicate 24 0 ++ [5, 0, 0, 0]
    ++ [1, 0, 0, 0] ++ [0, 0, 0, 0] ++ [0, 0, 0, 0] ++ [3, 0, 0, 0]
    ++ [2, 0, 0, 0] ++ [7, 0, 0, 0] ++ [9, 0, 0, 0]

/-- A second occluder group with all three counts zero — 12 bytes. -/
def c7group2 : List Nat := List.replicate 12 0

/-- Two concatenated occluder groups filling one 84-byte lump. -/
def c7data : List Nat := c7group1 ++ c7group2

/-- The decode of `c7group1`. -/
def c7occ1 : Occluder :=
  ⟨1, [⟨2, 0, 1, [0, 0, 0], [0, 0, 0], 5⟩], 1, [⟨0, 0, 3⟩], 2, [7, 9]⟩

/-- The decode of `c7group2`. -/
def c7occ2 : Occluder := ⟨0, [], 0, [], 0, []⟩

/-- An absent directory entry (offset 0). -/
def absentLump : Lump := ⟨0, 0, 0, [0, 0, 0, 0]⟩

/-- A directory whose only present entry sits at slot 12 (`Edges`) and
points at a non-empty 4-byte region — one whole `Edge` record worth of
bytes (C5). -/
def dirC5 : List Lump :=
  List.replicate 12 absentLump ++ [⟨4, 4, 0, [0, 0, 0, 0]⟩]

/-- The file buffer for `dirC5`: the edge region `[1, 2, 3, 4]` at
offset 4. -/
def fullC5 : List Nat := [9, 9, 9, 9] ++ [1, 2, 3, 4]

/-- A compressed directory entry (nonzero ident) whose 20-byte region
sits at offset 4 (C2, C9). -/
def lumpC2 : Lump := ⟨4, 20, 0, [76, 90, 77, 65]⟩

/-- A directory for C2: slot 0 absent, slot 1 (`Plane`) compressed with
a payload the decompressor rejects, slot 2 absent, slot 3 (`Vertexes`)
a valid 12-byte vertex region at offset 24. -/
def dirC2 : List Lump :=
  [absentLump, lumpC2, absentLump, ⟨24, 12, 0, [0, 0, 0, 0]⟩]

/-- The file buffer for `dirC2`: 4 pad bytes, the 20-byte compressed
region (all 1s), then 12 vertex bytes (all 2s). -/
def fullC2 : List Nat :=
  [0, 0, 0, 0] ++ List.replicate 20 1 ++ List.replicate 12 2

/-! ## Exactness of the fixed-stride record readers -/

theorem exact_pread (w : Nat) (c : List Nat → α) : Exact w c (pread w c) :=
  fun _ _ _ => rfl

theorem exact_pure (a : α) :
    Exact 0 (fun _ => a) (fun r => some (a, r)) := by
  intro p d hp
  simp [Nat.add_zero, hp]

theorem Exact.bind {w1 w2 : Nat} {c1 : List Nat → α}
    {c2 : α → List Nat → β} {g1 : LumpReader → Option (α × LumpReader)}
    {k : α → LumpReader → Option (β × LumpReader)}
    (h1 : Exact w1 c1 g1) (h2 : ∀ a, Exact w2 (c2 a) (k a)) :
    Exact (w1 + w2)
      (fun bytes => c2 (c1 (bytes.take w1)) ((bytes.drop w1).take w2))
      (fun r => pbind (g1 r) k) := by
  intro p d hp
  simp only []
  rw [h1 p d hp]
  by_cases hc1 : p + w1 ≤ List.length d
  · rw [if_pos hc1]
    show k (c1 ((d.drop p).take w1)) ⟨p + w1, d⟩ = _
    rw [h2 _ (p + w1) d hc1]
    by_cases hc2 : p + w1 + w2 ≤ List.length d
    · rw [if_pos hc2, if_pos (show p + (w1 + w2) ≤ List.length d by omega)]
      have e1 : List.take w1 (List.take (w1 + w2) (List.drop p d))
          = List.take w1 (List.drop p d) := by
        rw [List.take_take]
        congr 1
        omega
      have e2 : List.take w2 (List.drop w1 (List.take (w1 + w2)
            (List.drop p d)))
          = List.take w2 (List.drop (p + w1) d) := by
        rw [List.drop_take, List.drop_drop, List.take_take]
        congr 1
        omega
      rw [e1, e2, Nat.add_assoc]
    · rw [if_neg hc2,
        if_neg (show ¬ p + (w1 + w2) ≤ List.length d by omega)]
  · rw [if_neg hc1]
    show (none : Option (β × LumpReader)) = _
    rw [if_neg (show ¬ p + (w1 + w2) ≤ List.length d by omega)]

theorem readPlane_exact : ∃ c, Exact 20 c readPlane := by
  have h := Exact.bind (exact_pread 4 f32conv) fun vx =>
    Exact.bind (exact_pread 4 f32conv) fun vy =>
    Exact.bind (exact_pread 4 f32conv) fun vz =>
    Exact.bind (exact_pread 4 f32conv) fun dist =>
    Exact.bind (exact_pread 4 i32conv) fun ty =>
    exact_pure (Plane.mk vx vy vz dist ty)
  exact ⟨_, h⟩

theorem readTexData_exact : ∃ c, Exact 32 c readTexData := by
  have h := Exact.bind (exact_pread 4 f32conv) fun rr =>
    Exact.bind (exact_pread 4 f32conv) fun rg =>
    Exact.bind (exact_pread 4 f32conv) fun rb =>
    Exact.bind (exact_pread 4 i32conv) fun idx =>
    Exact.bind (exact_pread 4 i32conv) fun w =>
    Exact.bind (exact_pread 4 i32conv) fun h =>
    Exact.bind (exact_pread 4 i32conv) fun vw =>
    Exact.bind (exact_pread 4 i32conv) fun vh =>
    exact_pure (TexData.mk rr rg rb idx w h vw vh)
  exact ⟨_, h⟩

theorem readVertex_exact : ∃ c, Exact 12 c readVertex := by
  have h := Exact.bind (exact_pread 4 f32conv) fun x =>
    Exact.bind (exact_pread 4 f32conv) fun y =>
    Exact.bind (exact_pread 4 f32conv) fun z =>
    exact_pure (Vertex.mk x y z)
  exact ⟨_, h⟩

theorem readNode_exact : ∃ c, Exact 32 c readNode := by
  have h := Exact.bind (exact_pread 4 i32conv) fun pn =>
    Exact.bind (exact_pread 4 i32conv) fun c0 =>
    Exact.bind (exact_pread 4 i32conv) fun c1 =>
    Exact.bind (exact_pread 2 i16conv) fun mn0 =>
    Exact.bind (exact_pread 2 i16conv) fun mn1 =>
    Exact.bind (exact_pread 2 i16conv) fun mn2 =>
    Exact.bind (exact_pread 2 i16conv) fun mx0 =>
    Exact.bind (exact_pread 2 i16conv) fun mx1 =>
    Exact.bind (exact_pread 2 i16conv) fun mx2 =>
    Exact.bind (exact_pread 2 u16conv) fun ff =>
    Exact.bind (exact_pread 2 u16conv) fun nf =>
    Exact.bind (exact_pread 2 i16conv) fun ar =>
    Exact.bind (exact_pread 2 i16conv) fun pd =>
    exact_pure (Node.mk pn [c0, c1] [mn0, mn1, mn2] [mx0, mx1, mx2]
      ff nf ar pd)
  exact ⟨_, h⟩

theorem readTexInfo_exact : ∃ c, Exact 72 c readTexInfo := by
  have h := Exact.bind (exact_pread 4 f32conv) fun t0 =>
    Exact.bind (exact_pread 4 f32conv) fun t1 =>
    Exact.bind (exact_pread 4 f32conv) fun t2 =>
    Exact.bind (exact_pread 4 f32conv) fun t3 =>
    Exact.bind (exact_pread 4 f32conv) fun t4 =>
    Exact.bind (exact_pread 4 f32conv) fun t5 =>
    Exact.bind (exact_pread 4 f32conv) fun t6 =>
    Exact.bind (exact_pread 4 f32conv) fun t7 =>
    Exact.bind (exact_pread 4 f32conv) fun l0 =>
    Exact.bind (exact_pread 4 f32conv) fun l1 =>
    Exact.bind (exact_pread 4 f32conv) fun l2 =>
    Exact.bind (exact_pread 4 f32conv) fun l3 =>
    Exact.bind (exact_pread 4 f32conv) fun l4 =>
    Exact.bind (exact_pread 4 f32conv) fun l5 =>
    Exact.bind (exact_pread 4 f32conv) fun l6 =>
    Exact.bind (exact_pread 4 f32conv) fun l7 =>
    Exact.bind (exact_pread 4 i32conv) fun fl =>
    Exact.bind (exact_pread 4 i32conv) fun td =>
    exact_pure (TexInfo.mk [[t0, t1, t2, t3], [t4, t5, t6, t7]]
      [[l0, l1, l2, l3], [l4, l5, l6, l7]] fl td)
  exact ⟨_, h⟩

theorem readFace_exact : ∃ c, Exact 56 c readFace := by
  have h := Exact.bind (exact_pread 2 u16conv) fun pn =>
    Exact.bind (exact_pread 1 u8conv) fun sd =>
    Exact.bind (exact_pread 1 u8conv) fun onn =>
    Exact.bind (exact_pread 4 i32conv) fun fe =>
    Exact.bind (exact_pread 2 i16conv) fun ne =>
    Exact.bind (exact_pread 2 i16conv) fun ti =>
    Exact.bind (exact_pread 2 i16conv) fun di =>
    Exact.bind (exact_pread 2 i16conv) fun sf =>
    Exact.bind (exact_pread 1 u8conv) fun s0 =>
    Exact.bind (exact_pread 1 u8conv) fun s1 =>
    Exact.bind (exact_pread 1 u8conv) fun s2 =>
    Exact.bind (exact_pread 1 u8conv) fun s3 =>
    Exact.bind (exact_pread 4 i32conv) fun lo =>
    Exact.bind (exact_pread 4 f32conv) fun ar =>
    Exact.bind (exact_pread 4 i32conv) fun lm0 =>
    Exact.bind (exact_pread 4 i32conv) fun lm1 =>
    Exact.bind (exact_pread 4 i32conv) fun ls0 =>
    Exact.bind (exact_pread 4 i32conv) fun ls1 =>
    Exact.bind (exact_pread 4 i32conv) fun og =>
    Exact.bind (exact_pread 2 u16conv) fun np =>
    Exact.bind (exact_pread 2 u16conv) fun fp =>
    Exact.bind (exact_pread 4 u32conv) fun sg =>
    exact_pure (Face.mk pn sd onn fe ne ti di sf [s0, s1, s2, s3] lo ar
      [lm0, lm1] [ls0, ls1] og np fp sg)
  exact ⟨_, h⟩

theorem readLightMapSample_exact : ∃ c, Exact 4 c readLightMapSample := by
  have h := Exact.bind (exact_pread 1 u8conv) fun cr =>
    Exact.bind (exact_pread 1 u8conv) fun cg =>
    Exact.bind (exact_pread 1 u8conv) fun cb =>
    Exact.bind (exact_pread 1 i8conv) fun ex =>
    exact_pure (LightMapSample.mk cr cg cb ex)
  exact ⟨_, h⟩

theorem readN_exact {w : Nat} {c : List Nat → α}
    {g : LumpReader → Option (α × LumpReader)} (h : Exact w c g) :
    ∀ (k p : Nat) (d : List Nat), p + k * w ≤ List.length d →
      readN g k ⟨p, d⟩ =
        some ((List.range k).map
            (fun i => c ((d.drop (p + i * w)).take w)),
          ⟨p + k * w, d⟩)
  | 0, p, d, _ => by simp [readN]
  | k + 1, p, d, hk => by
    have hs : (k + 1) * w = k * w + w := by ring
    have hw1 : p + w ≤ List.length d := by omega
    rw [readN]
    rw [h p d (by omega), if_pos hw1]
    dsimp only
    rw [readN_exact h k (p + w) d (by omega)]
    have hl : List.map (fun i => c (List.take w (List.drop (p + w + i * w) d)))
          (List.range k)
        = List.map ((fun i => c (List.take w (List.drop (p + i * w) d)))
            ∘ Nat.succ) (List.range k) := by
      refine List.map_congr_left fun i _ => ?_
      have hiw : p + w + i * w = p + (i + 1) * w := by ring
      simp [Function.comp, Nat.succ_eq_add_one, hiw]
    have hpos : p + w + k * w = p + (k + 1) * w := by ring
    rw [List.range_succ_eq_map, List.map_cons, List.map_map, hl, hpos]
    simp

theorem parseFixed_eq {w : Nat} {c : List Nat → α}
    {g : LumpReader → Option (α × LumpReader)} (h : Exact w c g)
    (d : List Nat) :
    parseFixed w g d =
      some ((List.range (List.length d / w)).map
        (fun i => c ((d.drop (i * w)).take w))) := by
  unfold parseFixed LumpReader.new
  rw [readN_exact h (List.length d / w) 0 d
    (by simpa using Nat.div_mul_le_self (List.length d) w)]
  simp

/-- Core fact behind C4: a region of exactly `k` whole strides decodes
to `k` records, the `i`-th of which is the decode of the `i`-th stride
of bytes. -/
theorem fixedKindDecode {w : Nat} {g : LumpReader → Option (α × LumpReader)}
    (hex : ∃ c, Exact w c g) (hw : 0 < w) (d : List Nat) (k : Nat)
    (hd : List.length d = k * w) :
    ∃ l, parseFixed w g d = some l ∧ l.length = k ∧
      ∀ i, ∀ h : i < l.length,
        (g (LumpReader.new ((d.drop (i * w)).take w))).map Prod.fst
          = some (l.get ⟨i, h⟩) := by
  obtain ⟨c, hc⟩ := hex
  have hk : List.length d / w = k := by
    rw [hd]
    exact Nat.mul_div_cancel k hw
  refine ⟨_, parseFixed_eq hc d, by simp [hk], ?_⟩
  intro i hi
  have hik : i < k := by simpa [hk] using hi
  have hmul : (i + 1) * w = i * w + w := by ring
  have hle : (i + 1) * w ≤ k * w := Nat.mul_le_mul_right w (by omega)
  have hchunk : List.length ((d.drop (i * w)).take w) = w := by
    rw [List.length_take, List.length_drop, hd]
    omega
  simp only [LumpReader.new]
  rw [hc 0 _ (Nat.zero_le _), if_pos (by omega)]
  simp only [List.drop_zero]
  rw [List.take_of_length_le (le_of_eq hchunk)]
  simp [List.get_eq_getElem, List.getElem_map, List.getElem_range]

/-- Core fact behind the amended C3: every fixed-stride arm succeeds on
every region length, producing `length / stride` records. -/
theorem fixedKindLen {w : Nat} {g : LumpReader → Option (α × LumpReader)}
    (hex : ∃ c, Exact w c g) (d : List Nat) :
    ∃ l, parseFixed w g d = some l ∧ l.length = List.length d / w := by
  obtain ⟨c, hc⟩ := hex
  exact ⟨_, parseFixed_eq hc d, by simp⟩

/-! ## Claim theorems: C1, C3, C4, C6 -/

/-- C1 (amended): for every reader state and every primitive read
(unsigned/signed 8-, 16-, 32-bit integer or 32-bit float), a read that
would consume bytes past the end of the region panics — `none`, the
model of the out-of-bounds slice index in `read_xx` — rather than
returning a recoverable error (the read methods have no error
channel). -/
theorem c1_reads_past_end_are_panics :
    (∀ r : LumpReader, List.length r.data < r.position + 4 →
        read_f32 r = none) ∧
    (∀ r : LumpReader, List.length r.data < r.position + 4 →
        read_i32 r = none) ∧
    (∀ r : LumpReader, List.length r.data < r.position + 4 →
        read_u32 r = none) ∧
    (∀ r : LumpReader, List.length r.data < r.position + 2 →
        read_u16 r = none) ∧
    (∀ r : LumpReader, List.length r.data < r.position + 2 →
        read_i16 r = none) ∧
    (∀ r : LumpReader, List.length r.data < r.position + 1 →
        read_u8 r = none) ∧
    (∀ r : LumpReader, List.length r.data < r.position + 1 →
        read_i8 r = none) := by
  refine ⟨?_, ?_, ?_, ?_, ?_, ?_, ?_⟩
  all_goals
    intro r h
    simp only [read_f32, read_i32, read_u32, read_u16, read_i16, read_u8,
      read_i8, pread]
    rw [if_neg (by omega)]

/-- C1 witness: all seven primitive reads at position 3 of a 3-byte
region panic. -/
theorem c1_reads_past_end_are_panics_witness :
    read_f32 ⟨3, [0, 0, 0]⟩ = none ∧ read_i32 ⟨3, [0, 0, 0]⟩ = none ∧
    read_u32 ⟨3, [0, 0, 0]⟩ = none ∧ read_u16 ⟨3, [0, 0, 0]⟩ = none ∧
    read_i16 ⟨3, [0, 0, 0]⟩ = none ∧ read_u8 ⟨3, [0, 0, 0]⟩ = none ∧
    read_i8 ⟨3, [0, 0, 0]⟩ = none :=
  ⟨c1_reads_past_end_are_panics.1 _ (by decide),
   c1_reads_past_end_are_panics.2.1 _ (by decide),
   c1_reads_past_end_are_panics.2.2.1 _ (by decide),
   c1_reads_past_end_are_panics.2.2.2.1 _ (by decide),
   c1_reads_past_end_are_panics.2.2.2.2.1 _ (by decide),
   c1_reads_past_end_are_panics.2.2.2.2.2.1 _ (by decide),
   c1_reads_past_end_are_panics.2.2.2.2.2.2 _ (by decide)⟩

/-- C1 counterexample: a 32-bit read on an empty region does not fail
with a recoverable out-of-range error — it panics (`none` models the
Rust out-of-bounds slice panic; the claimed recoverable error does not
exist, as the read has no error channel to the caller). -/
theorem c1_recoverable_error_cex : read_i32 (LumpReader.new []) = none :=
  rfl

/-- C3 (amended): for every fixed-stride record kind, decoding a region
whose byte length is not an exact multiple of the stride does NOT fail:
it succeeds with `length / stride` records, silently discarding the
trailing partial record (the arms compute `num_lumps = len / stride`
with truncating division). -/
theorem c3_partial_stride_truncates (d : List Nat) :
    (¬ (20 ∣ List.length d) →
      ∃ l, parseFixed 20 readPlane d = some l ∧
        l.length = List.length d / 20) ∧
    (¬ (32 ∣ List.length d) →
      ∃ l, parseFixed 32 readTexData d = some l ∧
        l.length = List.length d / 32) ∧
    (¬ (12 ∣ List.length d) →
      ∃ l, parseFixed 12 readVertex d = some l ∧
        l.length = List.length d / 12) ∧
    (¬ (32 ∣ List.length d) →
      ∃ l, parseFixed 32 readNode d = some l ∧
        l.length = List.length d / 32) ∧
    (¬ (72 ∣ List.length d) →
      ∃ l, parseFixed 72 readTexInfo d = some l ∧
        l.length = List.length d / 72) ∧
    (¬ (56 ∣ List.length d) →
      ∃ l, parseFixed 56 readFace d = some l ∧
        l.length = List.length d / 56) ∧
    (¬ (4 ∣ List.length d) →
      ∃ l, parseFixed 4 readLightMapSample d = some l ∧
        l.length = List.length d / 4) := by
  refine ⟨?_, ?_, ?_, ?_, ?_, ?_, ?_⟩
  · exact fun _ => fixedKindLen readPlane_exact d
  · exact fun _ => fixedKindLen readTexData_exact d
  · exact fun _ => fixedKindLen readVertex_exact d
  · exact fun _ => fixedKindLen readNode_exact d
  · exact fun _ => fixedKindLen readTexInfo_exact d
  · exact fun _ => fixedKindLen readFace_exact d
  · exact fun _ => fixedKindLen readLightMapSample_exact d

/-- C3 witness: each kind on a region one byte longer than its stride
still decodes (to a single record). -/
theorem c3_partial_stride_truncates_witness :
    (∃ l, parseFixed 20 readPlane (List.replicate 21 0) = some l ∧
      l.length = List.length (List.replicate 21 0) / 20) ∧
    (∃ l, parseFixed 32 readTexData (List.replicate 33 0) = some l ∧
      l.length = List.length (List.replicate 33 0) / 32) ∧
    (∃ l, parseFixed 12 readVertex (List.replicate 13 0) = some l ∧
      l.length = List.length (List.replicate 13 0) / 12) ∧
    (∃ l, parseFixed 32 readNode (List.replicate 33 0) = some l ∧
      l.length = List.length (List.replicate 33 0) / 32) ∧
    (∃ l, parseFixed 72 readTexInfo (List.replicate 73 0) = some l ∧
      l.length = List.length (List.replicate 73 0) / 72) ∧
    (∃ l, parseFixed 56 readFace (List.replicate 57 0) = some l ∧
      l.length = List.length (List.replicate 57 0) / 56) ∧
    (∃ l, parseFixed 4 readLightMapSample (List.replicate 5 0) = some l ∧
      l.length = List.length (List.replicate 5 0) / 4) :=
  ⟨(c3_partial_stride_truncates (List.replicate 21 0)).1 (by decide),
   (c3_partial_stride_truncates (List.replicate 33 0)).2.1 (by decide),
   (c3_partial_stride_truncates (List.replicate 13 0)).2.2.1 (by decide),
   (c3_partial_stride_truncates (List.replicate 33 0)).2.2.2.1 (by decide),
   (c3_partial_stride_truncates (List.replicate 73 0)).2.2.2.2.1 (by decide),
   (c3_partial_stride_truncates (List.replicate 57 0)).2.2.2.2.2.1 (by decide),
   (c3_partial_stride_truncates (List.replicate 5 0)).2.2.2.2.2.2 (by decide)⟩

/-- C3 counterexample: a 21-byte plane region (stride 20) decodes
without any error to exactly one record, silently dropping the trailing
byte — the claimed OutOfRange failure does not occur. -/
theorem c3_no_out_of_range_cex :
    parseFixed 20 readPlane (List.replicate 21 0)
      = some [⟨0, 0, 0, 0, 0⟩] := by decide

/-- C4: for every implemented fixed-stride kind (Plane 20, TexData 32,
Vertex 12, Node 32, TexInfo 72, Face 56, LightmapSample 4), decoding a
region of exactly `k × stride` bytes yields exactly `k` records, the
slot's dispatch appends exactly those records to the kind's collection,
and the `i`-th record is the decode of bytes
`[i × stride, (i+1) × stride)` — record order follows byte order. -/
theorem c4_fixed_stride_exact_decode (d : List Nat) (k : Nat) :
    (List.length d = k * 20 →
      ∃ l, parseFixed 20 readPlane d = some l ∧ l.length = k ∧
        (∀ parsed, dispatchLump 1 d parsed
          = some { parsed with planes := parsed.planes ++ l }) ∧
        ∀ i, ∀ h : i < l.length,
          (readPlane (LumpReader.new ((d.drop (i * 20)).take 20))).map
              Prod.fst
            = some (l.get ⟨i, h⟩)) ∧
    (List.length d = k * 32 →
      ∃ l, parseFixed 32 readTexData d = some l ∧ l.length = k ∧
        (∀ parsed, dispatchLump 2 d parsed
          = some { parsed with texdata := parsed.texdata ++ l }) ∧
        ∀ i, ∀ h : i < l.length,
          (readTexData (LumpReader.new ((d.drop (i * 32)).take 32))).map
              Prod.fst
            = some (l.get ⟨i, h⟩)) ∧
    (List.length d = k * 12 →
      ∃ l, parseFixed 12 readVertex d = some l ∧ l.length = k ∧
        (∀ parsed, dispatchLump 3 d parsed
          = some { parsed with vertex_list := parsed.vertex_list ++ l }) ∧
        ∀ i, ∀ h : i < l.length,
          (readVertex (LumpReader.new ((d.drop (i * 12)).take 12))).map
              Prod.fst
            = some (l.get ⟨i, h⟩)) ∧
    (List.length d = k * 32 →
      ∃ l, parseFixed 32 readNode d = some l ∧ l.length = k ∧
        (∀ parsed, dispatchLump 5 d parsed
          = some { parsed with nodes := parsed.nodes ++ l }) ∧
        ∀ i, ∀ h : i < l.length,
          (readNode (LumpReader.new ((d.drop (i * 32)).take 32))).map
              Prod.fst
            = some (l.get ⟨i, h⟩)) ∧
    (List.length d = k * 72 →
      ∃ l, parseFixed 72 readTexInfo d = some l ∧ l.length = k ∧
        (∀ parsed, dispatchLump 6 d parsed
          = some { parsed with texinfo := parsed.texinfo ++ l }) ∧
        ∀ i, ∀ h : i < l.length,
          (readTexInfo (LumpReader.new ((d.drop (i * 72)).take 72))).map
              Prod.fst
            = some (l.get ⟨i, h⟩)) ∧
    (List.length d = k * 56 →
      ∃ l, parseFixed 56 readFace d = some l ∧ l.length = k ∧
        (∀ parsed, dispatchLump 7 d parsed
          = some { parsed with faces := parsed.faces ++ l }) ∧
        ∀ i, ∀ h : i < l.length,
          (readFace (LumpReader.new ((d.drop (i * 56)).take 56))).map
              Prod.fst
            = some (l.get ⟨i, h⟩)) ∧
    (List.length d = k * 4 →
      ∃ l, parseFixed 4 readLightMapSample d = some l ∧ l.length = k ∧
        (∀ parsed, dispatchLump 8 d parsed
          = some { parsed with lightmap_samples := parsed.lightmap_samples ++ l }) ∧
        ∀ i, ∀ h : i < l.length,
          (readLightMapSample (LumpReader.new ((d.drop (i * 4)).take 4))).map
              Prod.fst
            = some (l.get ⟨i, h⟩)) := by
  refine ⟨?_, ?_, ?_, ?_, ?_, ?_, ?_⟩
  · intro hd
    obtain ⟨l, hl, hlen, hget⟩ := fixedKindDecode readPlane_exact (by norm_num) d k hd
    exact ⟨l, hl, hlen, fun parsed => by simp [dispatchLump, hl], hget⟩
  · intro hd
    obtain ⟨l, hl, hlen, hget⟩ := fixedKindDecode readTexData_exact (by norm_num) d k hd
    exact ⟨l, hl, hlen, fun parsed => by simp [dispatchLump, hl], hget⟩
  · intro hd
    obtain ⟨l, hl, hlen, hget⟩ := fixedKindDecode readVertex_exact (by norm_num) d k hd
    exact ⟨l, hl, hlen, fun parsed => by simp [dispatchLump, hl], hget⟩
  · intro hd
    obtain ⟨l, hl, hlen, hget⟩ := fixedKindDecode readNode_exact (by norm_num) d k hd
    exact ⟨l, hl, hlen, fun parsed => by simp [dispatchLump, hl], hget⟩
  · intro hd
    obtain ⟨l, hl, hlen, hget⟩ := fixedKindDecode readTexInfo_exact (by norm_num) d k hd
    exact ⟨l, hl, hlen, fun parsed => by simp [dispatchLump, hl], hget⟩
  · intro hd
    obtain ⟨l, hl, hlen, hget⟩ := fixedKindDecode readFace_exact (by norm_num) d k hd
    exact ⟨l, hl, hlen, fun parsed => by simp [dispatchLump, hl], hget⟩
  · intro hd
    obtain ⟨l, hl, hlen, hget⟩ := fixedKindDecode readLightMapSample_exact (by norm_num) d k hd
    exact ⟨l, hl, hlen, fun parsed => by simp [dispatchLump, hl], hget⟩

/-- C4 witness: each conjunct instantiated at a one-stride all-zero
region with `k = 1`. -/
theorem c4_fixed_stride_exact_decode_witness :
    (∃ l, parseFixed 20 readPlane (List.replicate 20 0) = some l ∧ l.length = 1 ∧
      (∀ parsed, dispatchLump 1 (List.replicate 20 0) parsed
        = some { parsed with planes := parsed.planes ++ l }) ∧
      ∀ i, ∀ h : i < l.length,
        (readPlane (LumpReader.new (((List.replicate 20 0).drop (i * 20)).take 20))).map
            Prod.fst
          = some (l.get ⟨i, h⟩)) ∧
    (∃ l, parseFixed 32 readTexData (List.replicate 32 0) = some l ∧ l.length = 1 ∧
      (∀ parsed, dispatchLump 2 (List.replicate 32 0) parsed
        = some { parsed with texdata := parsed.texdata ++ l }) ∧
      ∀ i, ∀ h : i < l.length,
        (readTexData (LumpReader.new (((List.replicate 32 0).drop (i * 32)).take 32))).map
            Prod.fst
          = some (l.get ⟨i, h⟩)) ∧
    (∃ l, parseFixed 12 readVertex (List.replicate 12 0) = some l ∧ l.length = 1 ∧
      (∀ parsed, dispatchLump 3 (List.replicate 12 0) parsed
        = some { parsed with vertex_list := parsed.vertex_list ++ l }) ∧
      ∀ i, ∀ h : i < l.length,
        (readVertex (LumpReader.new (((List.replicate 12 0).drop (i * 12)).take 12))).map
            Prod.fst
          = some (l.get ⟨i, h⟩)) ∧
    (∃ l, parseFixed 32 readNode (List.replicate 32 0) = some l ∧ l.length = 1 ∧
      (∀ parsed, dispatchLump 5 (List.replicate 32 0) parsed
        = some { parsed with nodes := parsed.nodes ++ l }) ∧
      ∀ i, ∀ h : i < l.length,
        (readNode (LumpReader.new (((List.replicate 32 0).drop (i * 32)).take 32))).map
            Prod.fst
          = some (l.get ⟨i, h⟩)) ∧
    (∃ l, parseFixed 72 readTexInfo (List.replicate 72 0) = some l ∧ l.length = 1 ∧
      (∀ parsed, dispatchLump 6 (List.replicate 72 0) parsed
        = some { parsed with texinfo := parsed.texinfo ++ l }) ∧
      ∀ i, ∀ h : i < l.length,
        (readTexInfo (LumpReader.new (((List.replicate 72 0).drop (i * 72)).take 72))).map
            Prod.fst
          = some (l.get ⟨i, h⟩)) ∧
    (∃ l, parseFixed 56 readFace (List.replicate 56 0) = some l ∧ l.length = 1 ∧
      (∀ parsed, dispatchLump 7 (List.replicate 56 0) parsed
        = some { parsed with faces := parsed.faces ++ l }) ∧
      ∀ i, ∀ h : i < l.length,
        (readFace (LumpReader.new (((List.replicate 56 0).drop (i * 56)).take 56))).map
            Prod.fst
          = some (l.get ⟨i, h⟩)) ∧
    (∃ l, parseFixed 4 readLightMapSample (List.replicate 4 0) = some l ∧ l.length = 1 ∧
      (∀ parsed, dispatchLump 8 (List.replicate 4 0) parsed
        = some { parsed with lightmap_samples := parsed.lightmap_samples ++ l }) ∧
      ∀ i, ∀ h : i < l.length,
        (readLightMapSample (LumpReader.new (((List.replicate 4 0).drop (i * 4)).take 4))).map
            Prod.fst
          = some (l.get ⟨i, h⟩)) :=
  ⟨(c4_fixed_stride_exact_decode (List.replicate 20 0) 1).1 (by simp),
   (c4_fixed_stride_exact_decode (List.replicate 32 0) 1).2.1 (by simp),
   (c4_fixed_stride_exact_decode (List.replicate 12 0) 1).2.2.1 (by simp),
   (c4_fixed_stride_exact_decode (List.replicate 32 0) 1).2.2.2.1 (by simp),
   (c4_fixed_stride_exact_decode (List.replicate 72 0) 1).2.2.2.2.1 (by simp),
   (c4_fixed_stride_exact_decode (List.replicate 56 0) 1).2.2.2.2.2.1 (by simp),
   (c4_fixed_stride_exact_decode (List.replicate 4 0) 1).2.2.2.2.2.2 (by simp)⟩

/-- C6: a directory entry whose offset field is 0 is skipped entirely:
the result is returned unchanged for every file buffer, slot index,
length, version and ident — no slice of the buffer is taken and nothing
is decoded (the theorem holds even for an empty buffer and an absurd
length, which any slice would reject). -/
theorem c6_offset_zero_skipped (lzma : List Nat → Option (List Nat))
    (full : List Nat) (parsed : ParsedLumps) (i : Nat) (lump : Lump)
    (h : lump.fileofs = 0) :
    processLump lzma full parsed i lump = some parsed := by
  unfold processLump
  rw [if_pos h]

/-- C6 witness: an offset-0 entry with nonsense length, version and
ident over an empty file buffer is skipped. -/
theorem c6_offset_zero_skipped_witness :
    processLump lzmaStub [] initParsed 5 ⟨0, 99999, 7, [1, 2, 3, 4]⟩
      = some initParsed :=
  c6_offset_zero_skipped lzmaStub [] initParsed 5 ⟨0, 99999, 7, [1, 2, 3, 4]⟩
    rfl

/-! ## The compression path: C2, C9 -/

theorem pbind_some (a : α) (r : LumpReader)
    (k : α → LumpReader → Option β) : pbind (some (a, r)) k = k a r := rfl

theorem pbind_none (k : α → LumpReader → Option β) :
    pbind none k = none := rfl

theorem u8conv_drop_take (l : List Nat) (n : Nat) :
    u8conv ((l.drop n).take 1) = l.getD n 0 % 256 := by
  unfold u8conv
  congr 1
  rw [List.getD_eq_getElem?_getD, List.getD_eq_getElem?_getD,
    List.getElem?_take]
  simp [List.getElem?_drop]

/-- On a region of at least 17 bytes the compressed branch reads the
whole wrapper and calls the decompressor on exactly the reconstructed
stream `lzmaInput region`; its failure is the arm's panic, its output
is appended behind the `actual_size` zero prefill. -/
theorem decompressLump_eq (lzma : List Nat → Option (List Nat))
    (region : List Nat) (h : 17 ≤ List.length region) :
    decompressLump lzma region =
      match lzma (lzmaInput region) with
      | none => none
      | some out => some (List.replicate (actualSize region) 0 ++ out) := by
  unfold decompressLump LumpReader.new
  simp only [read_u32, read_u8, pread]
  rw [if_pos (show 0 + 4 ≤ List.length region by omega), pbind_some]
  rw [if_pos (show 0 + 4 + 4 ≤ List.length region by omega), pbind_some]
  rw [if_pos (show 0 + 4 + 4 + 4 ≤ List.length region by omega), pbind_some]
  rw [if_pos (show 0 + 4 + 4 + 4 + 1 ≤ List.length region by omega),
    pbind_some]
  rw [if_pos (show 0 + 4 + 4 + 4 + 1 + 1 ≤ List.length region by omega),
    pbind_some]
  rw [if_pos (show 0 + 4 + 4 + 4 + 1 + 1 + 1 ≤ List.length region by omega),
    pbind_some]
  rw [if_pos
    (show 0 + 4 + 4 + 4 + 1 + 1 + 1 + 1 ≤ List.length region by omega),
    pbind_some]
  rw [if_pos
    (show 0 + 4 + 4 + 4 + 1 + 1 + 1 + 1 + 1 ≤ List.length region by omega),
    pbind_some]
  simp only [u8conv_drop_take]
  rfl

/-- For a present, compressed entry the loop body is: slice, read the
wrapper, decompress, and only then dispatch — so a decompression
failure is a panic regardless of the slot, and a success hands the
decompressed buffer to the dispatch. -/
theorem processLump_compressed (lzma : List Nat → Option (List Nat))
    (full : List Nat) (parsed : ParsedLumps) (i : Nat) (lump : Lump)
    (region : List Nat)
    (h0 : lump.fileofs ≠ 0) (h1 : lump.ident ≠ [0, 0, 0, 0])
    (h2 : sliceLump full lump = some region)
    (h3 : 17 ≤ List.length region) :
    processLump lzma full parsed i lump =
      match lzma (lzmaInput region) with
      | none => none
      | some out =>
        dispatchLump i (List.replicate (actualSize region) 0 ++ out)
          parsed := by
  unfold processLump
  rw [if_neg h0, h2]
  dsimp only
  rw [if_pos h1]
  rw [decompressLump_eq lzma region h3]
  cases lzma (lzmaInput region) <;> rfl

/-- C2 (amended): when decompressing a compressed lump fails, the
failure is NOT contained to that lump: the `.unwrap()` on the
decompressor result panics, the per-entry processing returns no state
at all, and the whole `parse_lump_data` pass aborts without returning
an Aggregate Result (shown here for a single-entry directory; the
counterexample shows a multi-entry directory where a later decodable
lump is also lost). -/
theorem c2_decompression_failure_aborts (lzma : List Nat → Option (List Nat))
    (full : List Nat) (parsed : ParsedLumps) (i : Nat) (lump : Lump)
    (region : List Nat)
    (h0 : lump.fileofs ≠ 0) (h1 : lump.ident ≠ [0, 0, 0, 0])
    (h2 : sliceLump full lump = some region)
    (h3 : 17 ≤ List.length region)
    (h4 : lzma (lzmaInput region) = none) :
    processLump lzma full parsed i lump = none ∧
    parse_lump_data lzma [lump] full = none := by
  have hp : ∀ (parsed' : ParsedLumps) (i' : Nat),
      processLump lzma full parsed' i' lump = none := by
    intro parsed' i'
    rw [processLump_compressed lzma full parsed' i' lump region h0 h1 h2 h3,
      h4]
  refine ⟨hp parsed i, ?_⟩
  show parseLoop lzma full [(0, lump)] initParsed = none
  rw [parseLoop, hp initParsed 0]

/-- C2 witness: the single compressed entry `lumpC2` with a rejected
payload panics the per-entry step and the whole parse. -/
theorem c2_decompression_failure_aborts_witness :
    processLump lzmaStub fullC2 initParsed 1 lumpC2 = none ∧
    parse_lump_data lzmaStub [lumpC2] fullC2 = none :=
  c2_decompression_failure_aborts lzmaStub fullC2 initParsed 1 lumpC2
    (List.replicate 20 1) (by decide) (by decide) (by decide) (by decide)
    rfl

/-- C2 counterexample: in a directory whose slot 1 is a compressed lump
with a payload the decompressor rejects and whose slot 3 is a perfectly
decodable 12-byte vertex lump, the parse returns nothing at all — the
claimed Aggregate Result (empty slot-1 collection, decoded slot-3
vertices) is never produced; the failure is not contained. -/
theorem c2_failure_not_contained_cex :
    parse_lump_data lzmaStub dirC2 fullC2 = none := by decide

/-- C9: for every slot index whose directory entry has a nonzero offset
and a nonzero ident, the sliced region's 17-byte wrapper is read and
the LZMA decompressor runs on the reconstructed stream BEFORE the slot
dispatch: the step's outcome is exactly the dispatch of the
decompressed buffer (and a decompression failure is a panic) whatever
the slot — and for every slot outside {0,1,2,3,5,6,7,8,9} that
subsequent dispatch is a no-op returning the state unchanged. -/
theorem c9_decompress_runs_before_dispatch
    (lzma : List Nat → Option (List Nat)) (full : List Nat)
    (parsed : ParsedLumps) (i : Nat) (lump : Lump) (region : List Nat)
    (h0 : lump.fileofs ≠ 0) (h1 : lump.ident ≠ [0, 0, 0, 0])
    (h2 : sliceLump full lump = some region)
    (h3 : 17 ≤ List.length region) :
    (processLump lzma full parsed i lump =
      match lzma (lzmaInput region) with
      | none => none
      | some out =>
        dispatchLump i (List.replicate (actualSize region) 0 ++ out)
          parsed) ∧
    (i ∉ ([0, 1, 2, 3, 5, 6, 7, 8, 9] : List Nat) →
      ∀ (buf : List Nat) (q : ParsedLumps), dispatchLump i buf q = some q) := by
  constructor
  · exact processLump_compressed lzma full parsed i lump region h0 h1 h2 h3
  · intro hni buf q
    simp only [List.mem_cons, List.not_mem_nil, or_false, not_or] at hni
    obtain ⟨e0, e1, e2, e3, e5, e6, e7, e8, e9⟩ := hni
    simp [dispatchLump, e0, e1, e2, e3, e5, e6, e7, e8, e9]

/-- C9 witness: the compressed entry `lumpC2` dispatched at slot 12 (no
decoder): with a succeeding decompressor the step is the (no-op)
dispatch of the decompressed buffer; the no-op conjunct is instantiated
too. -/
theorem c9_decompress_runs_before_dispatch_witness :
    (processLump (lzmaConst [1, 2, 3]) fullC2 initParsed 12 lumpC2 =
      match lzmaConst [1, 2, 3] (lzmaInput (List.replicate 20 1)) with
      | none => none
      | some out =>
        dispatchLump 12
          (List.replicate (actualSize (List.replicate 20 1)) 0 ++ out)
          initParsed) ∧
    (12 ∉ ([0, 1, 2, 3, 5, 6, 7, 8, 9] : List Nat) →
      ∀ (buf : List Nat) (q : ParsedLumps),
        dispatchLump 12 buf q = some q) :=
  c9_decompress_runs_before_dispatch (lzmaConst [1, 2, 3]) fullC2
    initParsed 12 lumpC2 (List.replicate 20 1) (by decide) (by decide)
    (by decide) (by decide)

/-! ## Unimplemented slots: C5 -/

/-- C5 (amended): the slots for Edge (12), Surfedge (13), Model (14),
LeafFace (16), LeafBrush (17), Brush (18), Brushside (19), Area (20),
AreaPortal (21) and DisplacementInfo (27) have no decoder: their match
arms are `()` and `ParsedLumps` has no collections for these kinds, so
a present uncompressed lump of such a kind — of any content — leaves
the result completely unchanged instead of filling a typed
collection. -/
theorem c5_unimplemented_slots_noop (lzma : List Nat → Option (List Nat))
    (full : List Nat) (parsed : ParsedLumps) (i : Nat) (lump : Lump)
    (region : List Nat)
    (hi : i ∈ ([12, 13, 14, 16, 17, 18, 19, 20, 21, 27] : List Nat))
    (h0 : lump.fileofs ≠ 0) (hid : lump.ident = [0, 0, 0, 0])
    (h2 : sliceLump full lump = some region) :
    processLump lzma full parsed i lump = some parsed := by
  unfold processLump
  rw [if_neg h0, h2]
  dsimp only
  rw [if_neg (by simp [hid])]
  fin_cases hi <;> rfl

/-- C5 witness: a present 4-byte lump at the Edges slot (12) leaves the
result unchanged. -/
theorem c5_unimplemented_slots_noop_witness :
    processLump lzmaStub fullC5 initParsed 12 ⟨4, 4, 0, [0, 0, 0, 0]⟩
      = some initParsed :=
  c5_unimplemented_slots_noop lzmaStub fullC5 initParsed 12
    ⟨4, 4, 0, [0, 0, 0, 0]⟩ [1, 2, 3, 4] (by decide) (by decide) rfl
    (by decide)

/-- C5 counterexample: a directory whose only present entry is a
non-empty (4-byte, one whole Edge record) lump at the Edges slot
decodes to the all-empty aggregate: no collection of the result is
non-empty — `ParsedLumps` has no edge collection at all and slot 12's
arm is a no-op — contradicting the claim that such a lump yields a
non-empty typed collection. -/
theorem c5_nonempty_lump_no_collection_cex :
    parse_lump_data lzmaStub dirC5 fullC5
      = some ⟨[], [], [], [], [], [], [], [], []⟩ := by decide

/-! ## The occlusion loop: C7 -/

/-- Once the cursor position has reached the region length the
occlusion loop stops with the accumulated groups, for any fuel. -/
theorem parseOccLoopF_stop (f : Nat) (r : LumpReader) (acc : List Occluder)
    (h : List.length r.data ≤ r.position) :
    parseOccLoopF f r acc = some acc := by
  cases f
  all_goals
    rw [parseOccLoopF]
    rw [if_neg (by omega)]

/-- C7: the occlusion arm repeats whole-`Occluder`-group decodes while
the cursor position is below the region length; for a region that is
exactly two back-to-back groups — the first ending at `m`, the second
at the region's end — it decodes exactly the two groups, in order. -/
theorem c7_occluder_groups_until_exhausted (d : List Nat)
    (o1 o2 : Occluder) (m : Nat)
    (h1 : readOccGroup (LumpReader.new d) = some (o1, ⟨m, d⟩))
    (h2 : readOccGroup ⟨m, d⟩ = some (o2, ⟨List.length d, d⟩))
    (hm0 : 0 < m) (hm : m < List.length d) :
    parseOcclusion d = some [o1, o2] := by
  unfold parseOcclusion
  simp only [LumpReader.new] at h1 ⊢
  rw [parseOccLoopF]
  dsimp only
  rw [if_pos (show 0 < List.length d by omega), h1]
  show parseOccLoopF (List.length d) ⟨m, d⟩ [o1] = some [o1, o2]
  obtain ⟨n, hn⟩ : ∃ n, List.length d = n + 1 := ⟨List.length d - 1, by omega⟩
  rw [hn, parseOccLoopF]
  dsimp only
  rw [if_pos hm, h2]
  show parseOccLoopF n ⟨List.length d, d⟩ [o1, o2] = some [o1, o2]
  exact parseOccLoopF_stop n ⟨List.length d, d⟩ [o1, o2] (le_refl _)

/-- C7 witness: the concrete 84-byte lump `c7data`, built from the
72-byte group `c7group1` followed by the all-zero-counts 12-byte group
`c7group2`, decodes to exactly `[c7occ1, c7occ2]`. -/
theorem c7_occluder_groups_until_exhausted_witness :
    parseOcclusion c7data = some [c7occ1, c7occ2] :=
  c7_occluder_groups_until_exhausted c7data c7occ1 c7occ2 72 (by decide)
    (by decide) (by decide) (by decide)

/-! ## The entity text parser: C8, C10 -/

/-- C8: for every decompressor (the entry is uncompressed, so none is
ever consulted), resolving a directory whose slot 0 points at the lump
text `"{\n\"classname\" \"light\"\n\"origin\" \"0 0 0\"\n}\n"` yields
an aggregate whose entity sequence is exactly one mapping holding
exactly the two pairs `classname ↦ light` and `origin ↦ 0 0 0`, all
other collections empty. -/
theorem c8_entity_example (lzma : List Nat → Option (List Nat)) :
    parse_lump_data lzma [⟨16, 41, 0, [0, 0, 0, 0]⟩] c8full
      = some ⟨[[("classname", "light"), ("origin", "0 0 0")]],
          [], [], [], [], [], [], [], []⟩ := by
  show parseLoop lzma c8full [(0, ⟨16, 41, 0, [0, 0, 0, 0]⟩)] initParsed = _
  rw [parseLoop]
  have hstep : processLump lzma c8full initParsed 0 ⟨16, 41, 0, [0, 0, 0, 0]⟩
      = some ⟨[[("classname", "light"), ("origin", "0 0 0")]],
          [], [], [], [], [], [], [], []⟩ := by
    unfold processLump
    rw [if_neg (by decide)]
    rw [show sliceLump c8full ⟨16, 41, 0, [0, 0, 0, 0]⟩ = some c8text
      by decide]
    dsimp only
    rw [if_neg (by decide)]
    rw [show dispatchLump 0 c8text initParsed
        = some ⟨[[("classname", "light"), ("origin", "0 0 0")]],
            [], [], [], [], [], [], [], []⟩ by decide]
  rw [hstep]
  rfl

/-- C8 witness (the only binder is the decompressor, which the entry
never uses): the instance at the always-failing decompressor. -/
theorem c8_entity_example_witness :
    parse_lump_data lzmaStub [⟨16, 41, 0, [0, 0, 0, 0]⟩] c8full
      = some ⟨[[("classname", "light"), ("origin", "0 0 0")]],
          [], [], [], [], [], [], [], []⟩ :=
  c8_entity_example lzmaStub

/-- Whatever `valSearch` matches decomposes its input as the value
capture, a closing quote, the required newline, and the rest. -/
theorem valSearch_shape (cs : List Char) : ∀ v r : List Char,
    valSearch cs = some (v, r) →
      cs = v ++ Char.ofNat 34 :: Char.ofNat 10 :: r := by
  induction cs using valSearch.induct with
  | case1 =>
    intro v r h
    rw [valSearch.eq_def] at h
    exact Option.noConfusion h
  | case2 rest =>
    intro v r h
    rw [valSearch.eq_def] at h
    dsimp only at h
    rw [if_pos rfl] at h
    exact Option.noConfusion h
  | case3 c hc a b r2 hab =>
    intro v r h
    rw [valSearch.eq_def] at h
    dsimp only at h
    rw [if_neg hc, if_pos hab] at h
    simp only [Option.some.injEq, Prod.mk.injEq] at h
    obtain ⟨hv, hr⟩ := h
    subst hv
    subst hr
    simp [hab.1, hab.2]
  | case4 c hc a b r2 hab v1 r1 hval ih =>
    intro v r h
    rw [valSearch.eq_def] at h
    dsimp only at h
    rw [if_neg hc, if_neg hab, hval] at h
    dsimp only at h
    simp only [Option.some.injEq, Prod.mk.injEq] at h
    obtain ⟨hv, hr⟩ := h
    subst hv
    subst hr
    have hsh := ih v1 r1 hval
    rw [List.cons_append, ← hsh]
  | case5 c hc a b r2 hab hval ih =>
    intro v r h
    rw [valSearch.eq_def] at h
    dsimp only at h
    rw [if_neg hc, if_neg hab, hval] at h
    exact Option.noConfusion h
  | case6 c rest hc hshape =>
    intro v r h
    rcases rest with _ | ⟨a, rest1⟩
    · simp [valSearch, hc] at h
    · rcases rest1 with _ | ⟨b, r2⟩
      · simp [valSearch, hc] at h
      · exact absurd rfl (hshape a b r2)

/-- Whatever `keyBacktrack` matches decomposes its input as the key
capture, the quote-space-quote separator, then a `valSearch` match. -/
theorem keyBacktrack_shape (cs : List Char) : ∀ k v r : List Char,
    keyBacktrack cs = some (k, v, r) →
      cs = k ++ Char.ofNat 34 :: Char.ofNat 32 :: Char.ofNat 34 ::
        (v ++ Char.ofNat 34 :: Char.ofNat 10 :: r) := by
  induction cs using keyBacktrack.induct with
  | case1 =>
    intro k v r h
    rw [keyBacktrack.eq_def] at h
    exact Option.noConfusion h
  | case2 rest =>
    intro k v r h
    rw [keyBacktrack.eq_def] at h
    dsimp only at h
    rw [if_pos rfl] at h
    exact Option.noConfusion h
  | case3 c hc q1 sp q2 r2 hsep v1 r1 hval =>
    intro k v r h
    rw [keyBacktrack.eq_def] at h
    dsimp only at h
    rw [if_neg hc, if_pos hsep, hval] at h
    dsimp only at h
    simp only [Option.some.injEq, Prod.mk.injEq] at h
    obtain ⟨hk, hv, hr⟩ := h
    subst hk
    subst hv
    subst hr
    have hsh := valSearch_shape r2 v1 r1 hval
    simp [hsep.1, hsep.2.1, hsep.2.2, hsh]
  | case4 c hc q1 sp q2 r2 hsep hval k1 v1 r1 hkb ih =>
    intro k v r h
    rw [keyBacktrack.eq_def] at h
    dsimp only at h
    rw [if_neg hc, if_pos hsep, hval] at h
    dsimp only at h
    rw [hkb] at h
    dsimp only at h
    simp only [Option.some.injEq, Prod.mk.injEq] at h
    obtain ⟨hk, hv, hr⟩ := h
    subst hk
    subst hv
    subst hr
    have hsh := ih k1 v1 r1 hkb
    rw [List.cons_append, ← hsh]
  | case5 c hc q1 sp q2 r2 hsep hval hkb ih =>
    intro k v r h
    rw [keyBacktrack.eq_def] at h
    dsimp only at h
    rw [if_neg hc, if_pos hsep, hval] at h
    dsimp only at h
    rw [hkb] at h
    exact Option.noConfusion h
  | case6 c hc q1 sp q2 r2 hsep k1 v1 r1 hkb ih =>
    intro k v r h
    rw [keyBacktrack.eq_def] at h
    dsimp only at h
    rw [if_neg hc, if_neg hsep, hkb] at h
    dsimp only at h
    simp only [Option.some.injEq, Prod.mk.injEq] at h
    obtain ⟨hk, hv, hr⟩ := h
    subst hk
    subst hv
    subst hr
    have hsh := ih k1 v1 r1 hkb
    rw [List.cons_append, ← hsh]
  | case7 c hc q1 sp q2 r2 hsep hkb ih =>
    intro k v r h
    rw [keyBacktrack.eq_def] at h
    dsimp only at h
    rw [if_neg hc, if_neg hsep, hkb] at h
    exact Option.noConfusion h
  | case8 c rest hc hshape =>
    intro k v r h
    rcases rest with _ | ⟨q1, rest1⟩
    · simp [keyBacktrack, hc] at h
    · rcases rest1 with _ | ⟨sp, rest2⟩
      · simp [keyBacktrack, hc] at h
      · rcases rest2 with _ | ⟨q2, r2⟩
        · simp [keyBacktrack, hc] at h
        · exact absurd rfl (hshape q1 sp q2 r2)

/-- C10: a `"key" "value"` pair is matched only when the value's
closing quote is immediately followed by a newline — every `ITEM_RE`
match anchored at a position decomposes the text there as quote, key,
quote-space-quote, value, then EXACTLY a closing quote and a newline
before the remainder.  The closed conjunct shows the flip side: in the
block `"{\n\"a\" \"b\"\n\"c\" \"d\"}"` the final pair, whose closing
quote is followed by `}` instead of a newline, is silently dropped. -/
theorem c10_pair_needs_trailing_newline :
    (∀ cs k v r : List Char, itemAt cs = some (k, v, r) →
      cs = Char.ofNat 34 :: (k ++ Char.ofNat 34 :: Char.ofNat 32 ::
        Char.ofNat 34 :: (v ++ Char.ofNat 34 :: Char.ofNat 10 :: r))) ∧
    parseEntities c10text = [[("a", "b")]] := by
  constructor
  · intro cs k v r h
    rcases cs with _ | ⟨c, rest⟩
    · simp [itemAt] at h
    · rw [itemAt] at h
      by_cases hc : c = Char.ofNat 34
      · rw [if_pos hc] at h
        rw [hc, keyBacktrack_shape rest k v r h]
      · rw [if_neg hc] at h
        simp at h
  · decide

/-- C10 witness: the general conjunct applied to the concrete match
`"a" "b"` followed by a newline. -/
theorem c10_pair_needs_trailing_newline_witness :
    ([Char.ofNat 34, Char.ofNat 97, Char.ofNat 34, Char.ofNat 32,
      Char.ofNat 34, Char.ofNat 98, Char.ofNat 34, Char.ofNat 10]
        : List Char)
      = Char.ofNat 34 :: ([Char.ofNat 97] ++ Char.ofNat 34 ::
          Char.ofNat 32 :: Char.ofNat 34 :: ([Char.ofNat 98] ++
            Char.ofNat 34 :: Char.ofNat 10 :: [])) :=
  c10_pair_needs_trailing_newline.1 _ [Char.ofNat 97] [Char.ofNat 98] []
    (by decide)

end SrcBsp
